import Mathlib

/-!
Verification development for the agentic-pdf-extractor repository.

The JavaScript sources (src/extract_pdf.js, the CLI entry point and the MCP
server) are shallowly embedded below.  The external PDF toolkit (mupdf) and
the metadata library (pdf-parse) are opaque collaborators: their outcomes are
part of the environment (`FsEnv`), while every line of first-party logic is
translated directly from the source.  Side effects (file reads, adapter
calls, directory creation, file writes) are made explicit as an event trace
returned next to each function's result.
-/

namespace PdfExtractor

/-- Decidable equality for `Except`, used to evaluate concrete runs. -/
instance {ε α : Type} [DecidableEq ε] [DecidableEq α] :
    DecidableEq (Except ε α)
  | .error a, .error b =>
    if h : a = b then .isTrue (by rw [h])
    else .isFalse (by intro hh; cases hh; exact h rfl)
  | .error _, .ok _ => .isFalse (by intro hh; cases hh)
  | .ok _, .error _ => .isFalse (by intro hh; cases hh)
  | .ok a, .ok b =>
    if h : a = b then .isTrue (by rw [h])
    else .isFalse (by intro hh; cases hh; exact h rfl)

/-! ## JavaScript value helpers -/

/-- A JavaScript value that can be `undefined`, `null`, or a string.  Needed
because the CLI initialises `outputDir` to `null`, which behaves differently
from `undefined` under destructuring defaults. -/
inductive JStr where
  | undef
  | null
  | str (s : String)
deriving DecidableEq, Repr

/-- Destructuring default `const \x7b x = d \x7d = o`: the default applies only
when the value is `undefined`; `null` passes through unchanged. -/
def JStr.orDefault : JStr → String → JStr
  | .undef, d => .str d
  | v, _ => v

/-- JS `v || null` on an optional string: the empty string is falsy and is
replaced by `null`; `undefined` becomes `null`. -/
def jsOrNull : Option String → Option String
  | none => none
  | some s => if s = "" then none else some s

/-- JS truthiness of an optional string (`null`/`undefined`/`""` are falsy). -/
def jsTruthy : Option String → Bool
  | none => false
  | some s => s != ""

/-- JS `parseInt(s, 10)`: optional sign followed by a longest digit prefix;
`none` models `NaN` (no digits, or an `undefined` argument). -/
def jsParseInt (s : Option String) : Option Int :=
  match s with
  | none => none
  | some str =>
    let chars := str.toList
    let (neg, rest) :=
      match chars with
      | '-' :: cs => (true, cs)
      | '+' :: cs => (false, cs)
      | cs => (false, cs)
    let digits := rest.takeWhile Char.isDigit
    if digits.isEmpty then none
    else
      let n : Nat := digits.foldl (fun acc c => acc * 10 + (c.toNat - 48)) 0
      some (if neg then -(n : Int) else (n : Int))

/-! ## String primitives (structural implementations of the library string
operations the sources use, so that concrete runs reduce definitionally) -/

/-- JS `s.startsWith(c)` for a one-character needle: first-character test. -/
def strHeadIs (s : String) (c : Char) : Bool :=
  s.data.head? == some c

/-- Split a character list on a separator character (semantics of
`String.splitOn` with a one-character separator). -/
def splitOnChar (c : Char) : List Char → List (List Char)
  | [] => [[]]
  | x :: xs =>
    let r := splitOnChar c xs
    if x = c then [] :: r
    else
      match r with
      | [] => [[x]]
      | g :: gs => (x :: g) :: gs

/-- `s.splitOn (sep)` for a one-character separator. -/
def strSplitOnChar (s : String) (c : Char) : List String :=
  (splitOnChar c s.data).map String.mk

/-- JS `String.prototype.trim`: drop leading and trailing whitespace. -/
def jsTrim (s : String) : String :=
  String.mk
    (((s.data.dropWhile Char.isWhitespace).reverse.dropWhile
      Char.isWhitespace).reverse)

/-- Does `s` end with `suffix`? -/
def strEndsWith (s suffix : String) : Bool :=
  suffix.data.reverse.isPrefixOf s.data.reverse

/-! ## Path helpers (Node's `path` module, restricted to the shapes used) -/

/-- Node `path.resolve(p)` relative to a current working directory (the
sources only ever resolve a single path; `..` normalisation is never
exercised by them). -/
def resolvePath (cwd p : String) : String :=
  if strHeadIs p '/' then p else cwd ++ "/" ++ p

/-- Node `path.dirname`. -/
def dirname (p : String) : String :=
  let parts := strSplitOnChar p '/'
  if parts.length ≤ 1 then "."
  else
    let d := String.intercalate "/" parts.dropLast
    if d = "" then "/" else d

/-- Last path component of a path. -/
def lastComponent (p : String) : String :=
  (strSplitOnChar p '/').getLastD p

/-- Node `path.extname`. -/
def extnameOf (p : String) : String :=
  let b := lastComponent p
  let parts := strSplitOnChar b '.'
  if parts.length ≤ 1 then ""
  else if strHeadIs b '.' ∧ parts.length = 2 then ""
  else "." ++ parts.getLastD ""

/-- Node `path.basename(p, path.extname(p))`, as used to derive
`pdfBaseName` in `extractImages`. -/
def basenameNoExt (p : String) : String :=
  let b := lastComponent p
  let e := extnameOf p
  if e ≠ "" ∧ strEndsWith b e then b.dropRight e.length else b

/-- Node `path.join(dir, file)` where `dir` is a JS value: joining against
`null` or `undefined` raises a `TypeError`, exactly like `fs` path
arguments. -/
def jsPathJoin (d : JStr) (f : String) : Except String String :=
  match d with
  | .str s => .ok (s ++ "/" ++ f)
  | _ => .error "path"

/-! ## Base64 (Buffer.toString with base64 encoding) -/

def base64Table : String :=
  "ABCDEFGHIJKLMNOPQRSTUVWXYZabcdefghijklmnopqrstuvwxyz0123456789+/"

def base64Digit (n : Nat) : Char :=
  base64Table.toList.getD n 'A'

/-- Standard base64 of a byte list (each byte < 256), with padding, as
produced by `Buffer.from(buf).toString("base64")`. -/
def base64Encode : List Nat → String
  | [] => ""
  | [a] =>
    String.mk [base64Digit (a / 4 % 64), base64Digit (a % 4 * 16)] ++ "=="
  | [a, b] =>
    String.mk [base64Digit (a / 4 % 64), base64Digit (a % 4 * 16 + b / 16 % 16),
      base64Digit (b % 16 * 4)] ++ "="
  | a :: b :: c :: rest =>
    String.mk [base64Digit (a / 4 % 64), base64Digit (a % 4 * 16 + b / 16 % 16),
      base64Digit (b % 16 * 4 + c / 64 % 4), base64Digit (c % 64)] ++
      base64Encode rest

/-! ## Data model: the opaque adapters' view of a document -/

/-- The info dictionary returned by pdf-parse (`data.info`); field names
match the library's keys.  `none` is an absent (undefined) field. -/
structure PdfInfo where
  Title : Option String
  Author : Option String
  Subject : Option String
  Creator : Option String
  Producer : Option String
  CreationDate : Option String
  ModDate : Option String
deriving DecidableEq, Repr

/-- A rendered/decoded pixel buffer as exposed by mupdf: dimensions plus the
encoded bytes for either requested encoding (`asPNG`, `asJPEG(85)`). -/
structure Pixmap where
  width : Nat
  height : Nat
  png : List Nat
  jpeg : List Nat
deriving DecidableEq, Repr

/-- One image block met while walking a page's structured text with
preserve-images: either `image.toPixmap()` succeeds (with the block's
four-corner bounding box), or decoding throws. -/
inductive EmbeddedBlock where
  | ok (pix : Pixmap) (x0 y0 x1 y1 : Int)
  | decodeFails
deriving DecidableEq, Repr

/-- A loaded page: the preserve-whitespace text, the full-page render (the
rasterisation parameters — scale dpi/72, DeviceRGB, no alpha, annotations —
are fixed by the caller, so the adapter's output is a single pixmap), and
the structured-text image blocks (`none` when `toStructuredText`/`walk`
itself throws, which the source catches around `extractEmbeddedImages`). -/
structure Page where
  structuredText : String
  render : Pixmap
  stext : Option (List EmbeddedBlock)
deriving DecidableEq, Repr

structure PdfDocument where
  pages : List Page
deriving DecidableEq, Repr

/-- The environment of one extraction call: the working directory, which
files exist, and the opaque adapters' outcomes for this file's bytes
(`parse = none`: pdf-parse throws or yields no info; `doc = none`:
`mupdf.Document.openDocument` throws). -/
structure FsEnv where
  cwd : String
  existingFiles : List String
  parse : Option PdfInfo
  doc : Option PdfDocument
deriving DecidableEq, Repr

/-! ## Events and errors -/

/-- Externally visible actions, in program order: adapter entries and
filesystem mutations.  (`fs.existsSync` is a pure query and not traced.) -/
inductive Event where
  | readFile (path : String)
  | pdfParseCall
  | openDocument
  | mkdir (dir : String)
  | writeFile (path : String) (bytes : List Nat)
deriving DecidableEq, Repr

/-- Does the event mutate the filesystem? -/
def Event.isWrite : Event → Bool
  | .mkdir _ => true
  | .writeFile _ _ => true
  | _ => false

inductive JsError where
  | fileNotFound (absolutePath : String)
  | docOpenFailure
  | typeError (arg : String)
deriving DecidableEq, Repr

def JsError.message : JsError → String
  | .fileNotFound p => "PDF file not found: " ++ p
  | .docOpenFailure => "cannot open document"
  | .typeError a => "The \"" ++ a ++ "\" argument must be of type string"

/-! ## Result shapes -/

structure PageText where
  page : Nat
  text : String
deriving DecidableEq, Repr

structure DocMetadata where
  title : Option String
  author : Option String
  subject : Option String
  creator : Option String
  producer : Option String
  creationDate : Option String
  modDate : Option String
deriving DecidableEq, Repr

structure TextResult where
  file : String
  totalPages : Nat
  metadata : DocMetadata
  pages : List PageText
deriving DecidableEq, Repr

structure BBoxRec where
  x : Int
  y : Int
  w : Int
  h : Int
deriving DecidableEq, Repr

/-- The `imageInfo` object of extract_pdf.js: identification fields always
present, `type`/`bbox` only on embedded images, and the delivery fields
(`base64` + `mimeType`, or `path`) set by exactly one branch. -/
structure Artifact where
  page : Nat
  imageIndex : Nat
  width : Nat
  height : Nat
  format : String
  type : Option String := none
  bbox : Option BBoxRec := none
  base64 : Option String := none
  mimeType : Option String := none
  path : Option String := none
deriving DecidableEq, Repr

structure ImageResult where
  file : String
  totalPages : Nat
  totalImages : Nat
  images : List Artifact
deriving DecidableEq, Repr

structure CombinedPage where
  page : Nat
  text : String
  images : List Artifact
deriving DecidableEq, Repr

structure CombinedResult where
  file : String
  totalPages : Nat
  metadata : DocMetadata
  pages : List CombinedPage
  totalImages : Nat
deriving DecidableEq, Repr

/-- Options record passed to `extractImages` (`outputDir` is a JS value
because the CLI really passes `null` for it; the other fields are
`undefined` or a value of the proper type at every call site). -/
structure ImgOptions where
  outputDir : JStr := .undef
  format : Option String := none
  base64 : Option Bool := none
  dpi : Option Int := none
deriving DecidableEq, Repr

/-! ## Extraction Core: extractText -/

/-- Body of the page loop of `extractText`: `for (let i = 0; ...)` pushing
`\x7b page: i + 1, text: text.trim() \x7d`. -/
def pageTexts : Nat → List Page → List PageText
  | _, [] => []
  | i, p :: rest =>
    { page := i + 1, text := jsTrim p.structuredText } :: pageTexts (i + 1) rest

/-- `extractText(pdfPath)` from src/extract_pdf.js: resolve, existence
check, read bytes, best-effort pdf-parse metadata, open with mupdf, then
one trimmed PageText per page. -/
def extractText (env : FsEnv) (pdfPath : String) :
    Except JsError TextResult × List Event :=
  let absolutePath := resolvePath env.cwd pdfPath
  if absolutePath ∈ env.existingFiles then
    -- metadata via pdf-parse; a failure is swallowed and leaves \x7b\x7d
    let metadata : PdfInfo :=
      (env.parse).getD ⟨none, none, none, none, none, none, none⟩
    match env.doc with
    | none =>
      (.error .docOpenFailure,
        [.readFile absolutePath, .pdfParseCall, .openDocument])
    | some doc =>
      (.ok
        { file := absolutePath
          totalPages := doc.pages.length
          metadata :=
            { title := jsOrNull metadata.Title
              author := jsOrNull metadata.Author
              subject := jsOrNull metadata.Subject
              creator := jsOrNull metadata.Creator
              producer := jsOrNull metadata.Producer
              creationDate := jsOrNull metadata.CreationDate
              modDate := jsOrNull metadata.ModDate }
          pages := pageTexts 0 doc.pages },
        [.readFile absolutePath, .pdfParseCall, .openDocument])
  else
    (.error (.fileNotFound absolutePath), [])

/-! ## Extraction Core: extractImages -/

/-- `extractEmbeddedImages(page, pageIndex, pdfBaseName, options)`: the
structured-text walk over the page's image blocks.  Each block's body is
wrapped in its own try/catch in the source, so a decode failure (or a write
whose path argument is not a string) skips that single block without
incrementing `imageIndex`. -/
def extractEmbeddedImages (pageIndex : Nat) (pdfBaseName : String)
    (outputDir : JStr) (format : String) (returnBase64 : Bool) :
    List EmbeddedBlock → Nat → List Artifact × List Event
  | [], _ => ([], [])
  | .decodeFails :: rest, imageIndex =>
    -- image.toPixmap() threw: skip, keep the same index
    extractEmbeddedImages pageIndex pdfBaseName outputDir format returnBase64
      rest imageIndex
  | .ok pixmap x0 y0 x1 y1 :: rest, imageIndex =>
    let imgBuffer := if format = "jpeg" then pixmap.jpeg else pixmap.png
    let imageInfo : Artifact :=
      { page := pageIndex + 1
        imageIndex := imageIndex
        width := pixmap.width
        height := pixmap.height
        format := format
        type := some "embedded"
        bbox := some { x := x0, y := y0, w := x1 - x0, h := y1 - y0 } }
    if returnBase64 then
      let a := { imageInfo with
        base64 := some (base64Encode imgBuffer)
        mimeType := some (if format = "jpeg" then "image/jpeg" else "image/png") }
      let restRes := extractEmbeddedImages pageIndex pdfBaseName outputDir
        format returnBase64 rest (imageIndex + 1)
      (a :: restRes.1, restRes.2)
    else
      let ext := if format = "jpeg" then "jpg" else "png"
      let fileName := pdfBaseName ++ "_page_" ++ toString (pageIndex + 1) ++
        "_img_" ++ toString imageIndex ++ "." ++ ext
      match jsPathJoin outputDir fileName with
      | .error _ =>
        -- path.join/writeFileSync threw inside the catch: skip this block
        extractEmbeddedImages pageIndex pdfBaseName outputDir format
          returnBase64 rest imageIndex
      | .ok filePath =>
        let a := { imageInfo with path := some filePath }
        let restRes := extractEmbeddedImages pageIndex pdfBaseName outputDir
          format returnBase64 rest (imageIndex + 1)
        (a :: restRes.1, .writeFile filePath imgBuffer :: restRes.2)

/-- The page loop of `extractImages`: render the page (imageIndex 0), then
append the page's embedded artifacts; the page-render write is outside any
try/catch, so a failing path join aborts the whole call (side effects so
far are kept in the trace). -/
def imagesLoop (pdfBaseName : String) (outputDir : JStr) (format : String)
    (returnBase64 : Bool) : List Page → Nat →
    Except JsError (List Artifact) × List Event
  | [], _ => (.ok [], [])
  | p :: rest, i =>
    let pixmap := p.render
    let imgBuffer := if format = "jpeg" then pixmap.jpeg else pixmap.png
    let imageInfo : Artifact :=
      { page := i + 1
        imageIndex := 0
        width := pixmap.width
        height := pixmap.height
        format := format }
    if returnBase64 then
      let a := { imageInfo with
        base64 := some (base64Encode imgBuffer)
        mimeType := some (if format = "jpeg" then "image/jpeg" else "image/png") }
      let embedded :=
        match p.stext with
        | some blocks =>
          extractEmbeddedImages i pdfBaseName outputDir format returnBase64
            blocks 1
        | none => ([], [])  -- the walk threw; caught, page keeps only its render
      let restRes := imagesLoop pdfBaseName outputDir format returnBase64
        rest (i + 1)
      ((restRes.1).map (fun as => a :: embedded.1 ++ as),
        embedded.2 ++ restRes.2)
    else
      let ext := if format = "jpeg" then "jpg" else "png"
      let fileName := pdfBaseName ++ "_page_" ++ toString (i + 1) ++ "." ++ ext
      match jsPathJoin outputDir fileName with
      | .error e => (.error (.typeError e), [])
      | .ok filePath =>
        let a := { imageInfo with path := some filePath }
        let embedded :=
          match p.stext with
          | some blocks =>
            extractEmbeddedImages i pdfBaseName outputDir format returnBase64
              blocks 1
          | none => ([], [])
        let restRes := imagesLoop pdfBaseName outputDir format returnBase64
          rest (i + 1)
        ((restRes.1).map (fun as => a :: embedded.1 ++ as),
          .writeFile filePath imgBuffer :: embedded.2 ++ restRes.2)

/-- `extractImages(pdfPath, options)` from src/extract_pdf.js: resolve,
existence check, destructure the options (defaults apply to `undefined`
only), read bytes, open the document, create the output directory unless in
base64 mode (`fs.mkdirSync` raises a TypeError when the directory value is
`null`/`undefined`), then run the page loop. -/
def extractImages (env : FsEnv) (pdfPath : String) (options : ImgOptions) :
    Except JsError ImageResult × List Event :=
  let absolutePath := resolvePath env.cwd pdfPath
  if absolutePath ∈ env.existingFiles then
    let outputDir := options.outputDir.orDefault (dirname absolutePath)
    let format := options.format.getD "png"
    let returnBase64 := options.base64.getD false
    match env.doc with
    | none => (.error .docOpenFailure, [.readFile absolutePath, .openDocument])
    | some doc =>
      let mkdirResult : Except JsError (List Event) :=
        if returnBase64 then .ok []
        else
          match outputDir with
          | .str s => .ok [.mkdir s]
          | _ => .error (.typeError "path")
      match mkdirResult with
      | .error e => (.error e, [.readFile absolutePath, .openDocument])
      | .ok mkdirEvents =>
        let pdfBaseName := basenameNoExt absolutePath
        let loopRes := imagesLoop pdfBaseName outputDir format returnBase64
          doc.pages 0
        match loopRes.1 with
        | .error e =>
          (.error e,
            [Event.readFile absolutePath, Event.openDocument] ++ mkdirEvents ++
              loopRes.2)
        | .ok images =>
          (.ok
            { file := absolutePath
              totalPages := doc.pages.length
              totalImages := images.length
              images := images },
            [Event.readFile absolutePath, Event.openDocument] ++ mkdirEvents ++
              loopRes.2)
  else
    (.error (.fileNotFound absolutePath), [])

/-! ## Extraction Core: extractAll -/

/-- `extractAll(pdfPath, options)`: run both extractions (concurrently in
the source; both traces happen and are concatenated here), then group each
page's artifacts under its PageText by matching page number. -/
def extractAll (env : FsEnv) (pdfPath : String) (options : ImgOptions) :
    Except JsError CombinedResult × List Event :=
  let textRes := extractText env pdfPath
  let imageRes := extractImages env pdfPath options
  match textRes.1, imageRes.1 with
  | .ok t, .ok im =>
    (.ok
      { file := t.file
        totalPages := t.totalPages
        metadata := t.metadata
        pages := t.pages.map (fun p =>
          { page := p.page
            text := p.text
            images := im.images.filter (fun img => img.page == p.page) })
        totalImages := im.totalImages },
      textRes.2 ++ imageRes.2)
  | .error e, _ => (.error e, textRes.2 ++ imageRes.2)
  | .ok _, .error e => (.error e, textRes.2 ++ imageRes.2)

/-! ## MCP Front-End (the server's three tools) -/

/-- An MCP content block (`type: "text"` or `type: "image"`). -/
inductive ContentBlock where
  | text (s : String)
  | image (data : String) (mimeType : Option String)
deriving DecidableEq, Repr

/-- A tool call result.  The source sets `isError: true` only in the catch
branch; its absence on success is modelled as `false`. -/
structure ToolResponse where
  content : List ContentBlock
  isError : Bool
deriving DecidableEq, Repr

/-- JS string-or-undefined turned into the JS value passed for `outputDir`. -/
def jstrOfOption : Option String → JStr
  | none => .undef
  | some s => .str s

/-- The options record the `extract_pdf_images` tool hands to
`extractImages` (zod has already applied the schema defaults). -/
def toolImageOptions (outputDir : Option String) (format : String)
    (returnBase64 : Bool) (dpi : Int) : ImgOptions :=
  { outputDir := jstrOfOption outputDir
    format := some format
    base64 := some returnBase64
    dpi := some dpi }

/-- The options record the `extract_pdf_all` tool hands to `extractAll`
(inline base64 mode forced on). -/
def toolAllOptions (outputDir : Option String) (format : String)
    (dpi : Int) : ImgOptions :=
  { outputDir := jstrOfOption outputDir
    format := some format
    base64 := some true
    dpi := some dpi }

/-- The per-page section of the text tool's output. -/
def textToolPageSection (p : PageText) : String :=
  "── Page " ++ toString p.page ++ " ──────────────────────\n" ++
    (if p.text != "" then p.text else "(empty page)") ++ "\n\n"

/-- The formatted output of the `extract_pdf_text` tool's success branch. -/
def textToolOutput (result : TextResult) : String :=
  "📄 PDF Text Extraction: " ++ result.file ++ "\n" ++
  "━━━━━━━━━━━━━━━━━━━━━━━━━━━━━━━━━━━━\n" ++
  "Total Pages: " ++ toString result.totalPages ++ "\n" ++
  (if jsTruthy result.metadata.title then
    "Title: " ++ result.metadata.title.getD "" ++ "\n" else "") ++
  (if jsTruthy result.metadata.author then
    "Author: " ++ result.metadata.author.getD "" ++ "\n" else "") ++
  (if jsTruthy result.metadata.subject then
    "Subject: " ++ result.metadata.subject.getD "" ++ "\n" else "") ++
  "\n" ++
  String.join (result.pages.map textToolPageSection)

/-- The `extract_pdf_text` tool handler: the Extraction Core call is wrapped
in try/catch; an error becomes a single error-flagged text block. -/
def extract_pdf_text (env : FsEnv) (pdfPath : String) : ToolResponse :=
  match (extractText env pdfPath).1 with
  | .ok result => { content := [.text (textToolOutput result)], isError := false }
  | .error e =>
    { content := [.text ("Error: " ++ e.message)], isError := true }

/-- One summary line of the images tool's output. -/
def imageSummaryLine (img : Artifact) : String :=
  "• Page " ++ toString img.page ++
  (if img.type == some "embedded" then
    " (embedded image #" ++ toString img.imageIndex ++ ")"
  else " (full page render)") ++
  ": " ++ toString img.width ++ "×" ++ toString img.height ++ "px" ++
  (if jsTruthy img.path then " → " ++ img.path.getD "" else "") ++ "\n"

/-- The summary text block of the `extract_pdf_images` tool. -/
def imagesToolSummary (result : ImageResult) : String :=
  "🖼️ PDF Image Extraction: " ++ result.file ++ "\n" ++
  "━━━━━━━━━━━━━━━━━━━━━━━━━━━━━━━━━━━━\n" ++
  "Total Pages: " ++ toString result.totalPages ++ "\n" ++
  "Total Images Extracted: " ++ toString result.totalImages ++ "\n\n" ++
  String.join (result.images.map imageSummaryLine)

/-- Inline image blocks for every artifact carrying (truthy) base64 data. -/
def inlineImageBlocks (images : List Artifact) : List ContentBlock :=
  images.filterMap (fun img =>
    match img.base64 with
    | some b => if b != "" then some (.image b img.mimeType) else none
    | none => none)

/-- The `extract_pdf_images` tool handler. -/
def extract_pdf_images (env : FsEnv) (pdfPath : String)
    (outputDir : Option String) (format : String) (returnBase64 : Bool)
    (dpi : Int) : ToolResponse :=
  match (extractImages env pdfPath
      (toolImageOptions outputDir format returnBase64 dpi)).1 with
  | .ok result =>
    { content :=
        ContentBlock.text (imagesToolSummary result) ::
          (if returnBase64 then inlineImageBlocks result.images else [])
      isError := false }
  | .error e =>
    { content := [.text ("Error: " ++ e.message)], isError := true }

/-- Per-page content blocks of the `extract_pdf_all` tool: a text block,
then that page's inline image blocks. -/
def allToolPageBlocks (page : CombinedPage) : List ContentBlock :=
  ContentBlock.text
    ("── Page " ++ toString page.page ++ " ──────────────────────\n" ++
      (if page.text != "" then page.text else "(empty page)") ++ "\n" ++
      (if page.images.length > 0 then
        "\n[" ++ toString page.images.length ++ " image(s) on this page]\n"
      else "")) ::
    inlineImageBlocks page.images

/-- The `extract_pdf_all` tool handler (base64 forced on). -/
def extract_pdf_all (env : FsEnv) (pdfPath : String)
    (outputDir : Option String) (format : String) (dpi : Int) : ToolResponse :=
  match (extractAll env pdfPath (toolAllOptions outputDir format dpi)).1 with
  | .ok result =>
    { content :=
        ContentBlock.text
          ("📄🖼️ Full PDF Extraction: " ++ result.file ++ "\n" ++
            "━━━━━━━━━━━━━━━━━━━━━━━━━━━━━━━━━━━━\n" ++
            "Total Pages: " ++ toString result.totalPages ++ "\n" ++
            "Total Images: " ++ toString result.totalImages ++ "\n" ++
            (if jsTruthy result.metadata.title then
              "Title: " ++ result.metadata.title.getD "" ++ "\n" else "") ++
            (if jsTruthy result.metadata.author then
              "Author: " ++ result.metadata.author.getD "" ++ "\n" else "") ++
            "\n") ::
          (result.pages.map allToolPageBlocks).flatten
      isError := false }
  | .error e =>
    { content := [.text ("Error: " ++ e.message)], isError := true }

/-! ## CLI Front-End -/

/-- The record built by the CLI's `parseArgs`.  `outputDir` starts as JS
`null`; `format`/`dpi` use `none` for an `undefined` lookahead argument
(`dpi = none` also stands for `parseInt` producing NaN — the value is only
forwarded to the abstracted rasteriser). -/
structure ParsedArgs where
  command : Option String
  pdfPath : Option String
  outputDir : JStr
  format : Option String
  dpi : Option Int
  base64 : Bool
  json : Bool
deriving DecidableEq, Repr

/-- The `while` loop of `parseArgs`, consuming the argument vector from the
front; value-taking flags consume the following argument (`args[++i]`,
`undefined` past the end). -/
def parseArgsLoop : ParsedArgs → List String → ParsedArgs
  | parsed, [] => parsed
  | parsed, arg :: rest =>
    if ¬ jsTruthy parsed.command ∧ ¬ strHeadIs arg '-' then
      parseArgsLoop { parsed with command := some arg } rest
    else if ¬ jsTruthy parsed.pdfPath ∧ ¬ strHeadIs arg '-' ∧
        jsTruthy parsed.command then
      parseArgsLoop { parsed with pdfPath := some arg } rest
    else if arg = "--output-dir" ∨ arg = "-o" then
      match rest with
      | v :: rest2 => parseArgsLoop { parsed with outputDir := .str v } rest2
      | [] => parseArgsLoop { parsed with outputDir := .undef } []
    else if arg = "--format" ∨ arg = "-f" then
      match rest with
      | v :: rest2 => parseArgsLoop { parsed with format := some v } rest2
      | [] => parseArgsLoop { parsed with format := none } []
    else if arg = "--dpi" ∨ arg = "-d" then
      match rest with
      | v :: rest2 =>
        parseArgsLoop { parsed with dpi := jsParseInt (some v) } rest2
      | [] => parseArgsLoop { parsed with dpi := jsParseInt none } []
    else if arg = "--base64" ∨ arg = "-b" then
      parseArgsLoop { parsed with base64 := true } rest
    else if arg = "--json" ∨ arg = "-j" then
      parseArgsLoop { parsed with json := true } rest
    else
      parseArgsLoop parsed rest

/-- `parseArgs(args)` with its initial record (note `outputDir: null`). -/
def parseArgs (args : List String) : ParsedArgs :=
  parseArgsLoop
    { command := none
      pdfPath := none
      outputDir := .null
      format := some "png"
      dpi := some 150
      base64 := false
      json := false }
    args

/-- Outcome of one CLI command: a usage error (missing path, exit 1), the
catch branch printing the thrown error's message (exit 1), or successful
output. -/
inductive CliOutcome where
  | usageError (msg : String)
  | failure (msg : String)
  | imagesOutput (r : ImageResult) (json : Bool)
deriving DecidableEq, Repr

/-- The `images` case of the CLI's `main`: require a PDF path, then call
`extractImages` with the parsed options passed through verbatim
(`outputDir: opts.outputDir` — the JS `null` initial value included). -/
def runImagesCommand (env : FsEnv) (opts : ParsedArgs) :
    CliOutcome × List Event :=
  if ¬ jsTruthy opts.pdfPath then
    (.usageError "Error: Please provide a PDF file path.", [])
  else
    let r := extractImages env (opts.pdfPath.getD "")
      { outputDir := opts.outputDir
        format := opts.format
        base64 := some opts.base64
        dpi := opts.dpi }
    match r.1 with
    | .ok result => (.imagesOutput result opts.json, r.2)
    | .error e => (.failure e.message, r.2)

/-- The CLI `images` command end to end: argument parsing then dispatch. -/
def cliImages (env : FsEnv) (args : List String) : CliOutcome × List Event :=
  runImagesCommand env (parseArgs args)

/-! ## Sample data used by the witnesses -/

def pixA : Pixmap := { width := 10, height := 20, png := [1, 2, 3], jpeg := [4, 5] }

def pixB : Pixmap := { width := 7, height := 8, png := [9], jpeg := [10, 11, 12] }

def pageA : Page :=
  { structuredText := "  hello world \n"
    render := pixA
    stext := some [.ok pixB 1 2 5 9, .decodeFails, .ok pixA 0 0 3 3] }

def pageB : Page := { structuredText := "", render := pixB, stext := none }

def sampleDoc : PdfDocument := { pages := [pageA, pageB] }

def sampleEnv : FsEnv :=
  { cwd := "/work", existingFiles := ["/work/doc.pdf"], parse := none,
    doc := some sampleDoc }

def emptyEnv : FsEnv :=
  { cwd := "/work", existingFiles := [], parse := none, doc := none }

/-- The text result `extractText` produces on `sampleEnv`. -/
def sampleTextResult : TextResult :=
  { file := "/work/doc.pdf"
    totalPages := 2
    metadata := ⟨none, none, none, none, none, none, none⟩
    pages := [{ page := 1, text := "hello world" }, { page := 2, text := "" }] }

/-! ## Helper lemmas about the page-text loop -/

theorem pageTexts_map_page (l : List Page) :
    ∀ i, (pageTexts i l).map PageText.page = List.range' (i + 1) l.length := by
  induction l with
  | nil => intro i; rfl
  | cons p rest ih =>
    intro i
    simp only [pageTexts, List.map_cons, List.length_cons, List.range'_succ, ih]

theorem pageTexts_map_text (l : List Page) :
    ∀ i, (pageTexts i l).map PageText.text =
      l.map (fun p => jsTrim p.structuredText) := by
  induction l with
  | nil => intro i; rfl
  | cons p rest ih =>
    intro i
    simp only [pageTexts, List.map_cons, ih]

theorem pageTexts_length (l : List Page) :
    ∀ i, (pageTexts i l).length = l.length := by
  induction l with
  | nil => intro i; rfl
  | cons p rest ih =>
    intro i
    simp only [pageTexts, List.length_cons, ih]

/-! ## Claim C1 -/

/-- Claim C1: for every valid PDF (one the adapter opens), `extractText`
returns exactly one PageText per page, with pageNumber values forming the
contiguous sequence 1..totalPages in order, and each entry's text being the
whitespace-trimmed extracted page text. -/
theorem extractText_one_trimmed_entry_per_page (env : FsEnv)
    (pdfPath : String) (d : PdfDocument) (r : TextResult)
    (hdoc : env.doc = some d)
    (h : (extractText env pdfPath).1 = .ok r) :
    r.totalPages = d.pages.length ∧
    r.pages.length = r.totalPages ∧
    r.pages.map PageText.page = List.range' 1 r.totalPages ∧
    r.pages.map PageText.text = d.pages.map (fun p => jsTrim p.structuredText) := by
  unfold extractText at h
  rw [hdoc] at h
  by_cases hex : resolvePath env.cwd pdfPath ∈ env.existingFiles
  · rw [if_pos hex] at h
    simp only [Except.ok.injEq] at h
    subst h
    exact ⟨rfl, pageTexts_length d.pages 0, pageTexts_map_page d.pages 0,
      pageTexts_map_text d.pages 0⟩
  · rw [if_neg hex] at h
    simp at h

/-- Witness for C1 at a concrete two-page document. -/
theorem extractText_one_trimmed_entry_per_page_witness :
    sampleTextResult.totalPages = sampleDoc.pages.length ∧
    sampleTextResult.pages.length = sampleTextResult.totalPages ∧
    sampleTextResult.pages.map PageText.page =
      List.range' 1 sampleTextResult.totalPages ∧
    sampleTextResult.pages.map PageText.text =
      sampleDoc.pages.map (fun p => jsTrim p.structuredText) :=
  extractText_one_trimmed_entry_per_page sampleEnv "doc.pdf" sampleDoc
    sampleTextResult rfl (by decide)

/-! ## Claim C3 -/

/-- Claim C3: a path that does not reference an existing file makes both
`extractText` and `extractImages` fail with the FileNotFound condition with
an empty event trace — so no byte read, no Metadata Adapter call, and no
document open has been attempted. -/
theorem missing_file_fails_before_any_adapter_call (env : FsEnv)
    (pdfPath : String) (options : ImgOptions)
    (h : resolvePath env.cwd pdfPath ∉ env.existingFiles) :
    extractText env pdfPath =
      (.error (.fileNotFound (resolvePath env.cwd pdfPath)), []) ∧
    extractImages env pdfPath options =
      (.error (.fileNotFound (resolvePath env.cwd pdfPath)), []) := by
  unfold extractText extractImages
  simp [h]

/-- Witness for C3: an empty filesystem. -/
theorem missing_file_fails_before_any_adapter_call_witness :
    extractText emptyEnv "doc.pdf" =
      (.error (.fileNotFound (resolvePath emptyEnv.cwd "doc.pdf")), []) ∧
    extractImages emptyEnv "doc.pdf" {} =
      (.error (.fileNotFound (resolvePath emptyEnv.cwd "doc.pdf")), []) :=
  missing_file_fails_before_any_adapter_call emptyEnv "doc.pdf" {} (by decide)

/-! ## Claim C4 -/

/-- Claim C4: when the Metadata Adapter (pdf-parse) fails, `extractText`
still succeeds on a document the PDF adapter opens, and every field of the
returned metadata is null; metadata absence is never reported as an
error. -/
theorem extractText_survives_metadata_failure (env : FsEnv)
    (pdfPath : String) (d : PdfDocument)
    (hex : resolvePath env.cwd pdfPath ∈ env.existingFiles)
    (hparse : env.parse = none)
    (hdoc : env.doc = some d) :
    ∃ r, (extractText env pdfPath).1 = .ok r ∧
      r.metadata = ⟨none, none, none, none, none, none, none⟩ := by
  unfold extractText
  rw [hdoc, hparse]
  simp [hex, jsOrNull]

/-- Witness for C4: `sampleEnv` has `parse = none`. -/
theorem extractText_survives_metadata_failure_witness :
    ∃ r, (extractText sampleEnv "doc.pdf").1 = .ok r ∧
      r.metadata = ⟨none, none, none, none, none, none, none⟩ :=
  extractText_survives_metadata_failure sampleEnv "doc.pdf" sampleDoc
    (by decide) rfl rfl

/-! ## Claim C6 -/

/-- Claim C6: whenever both sub-extractions succeed, `extractAll` succeeds
and its CombinedResult has one entry per PageText of the text result, in
the text result's page order, and each entry carries exactly the
ImageArtifacts of the image result whose page number matches that page. -/
theorem extractAll_groups_images_under_matching_page (env : FsEnv)
    (pdfPath : String) (options : ImgOptions) (t : TextResult)
    (im : ImageResult)
    (ht : (extractText env pdfPath).1 = .ok t)
    (hi : (extractImages env pdfPath options).1 = .ok im) :
    ∃ r, (extractAll env pdfPath options).1 = .ok r ∧
      r.pages.map (fun cp => (cp.page, cp.text)) =
        t.pages.map (fun pt => (pt.page, pt.text)) ∧
      ∀ cp ∈ r.pages, ∀ a : Artifact,
        a ∈ cp.images ↔ a ∈ im.images ∧ a.page = cp.page := by
  unfold extractAll
  dsimp only
  rw [ht, hi]
  refine ⟨_, rfl, ?_, ?_⟩
  · simp [List.map_map, Function.comp]
  · intro cp hcp a
    simp only [List.mem_map] at hcp
    obtain ⟨pt, _, hpt⟩ := hcp
    subst hpt
    simp [List.mem_filter]

/-- The image result `extractImages` produces on `sampleEnv` in inline
(base64) mode with the default png format. -/
def sampleInlineResult : ImageResult :=
  { file := "/work/doc.pdf"
    totalPages := 2
    totalImages := 4
    images :=
      [{ page := 1, imageIndex := 0, width := 10, height := 20,
         format := "png", base64 := some "AQID",
         mimeType := some "image/png" },
       { page := 1, imageIndex := 1, width := 7, height := 8,
         format := "png", type := some "embedded",
         bbox := some ⟨1, 2, 4, 7⟩, base64 := some "CQ==",
         mimeType := some "image/png" },
       { page := 1, imageIndex := 2, width := 10, height := 20,
         format := "png", type := some "embedded",
         bbox := some ⟨0, 0, 3, 3⟩, base64 := some "AQID",
         mimeType := some "image/png" },
       { page := 2, imageIndex := 0, width := 7, height := 8,
         format := "png", base64 := some "CQ==",
         mimeType := some "image/png" }] }

/-- Witness for C6 at the sample document in inline mode. -/
theorem extractAll_groups_images_under_matching_page_witness :
    ∃ r,
      (extractAll sampleEnv "doc.pdf" { base64 := some true }).1 = .ok r ∧
      r.pages.map (fun cp => (cp.page, cp.text)) =
        sampleTextResult.pages.map (fun pt => (pt.page, pt.text)) ∧
      ∀ cp ∈ r.pages, ∀ a : Artifact,
        a ∈ cp.images ↔ a ∈ sampleInlineResult.images ∧ a.page = cp.page :=
  extractAll_groups_images_under_matching_page sampleEnv "doc.pdf"
    { base64 := some true } sampleTextResult sampleInlineResult
    (by decide) (by decide)

/-! ## Claim C7 -/

/-- Claim C7: for each of the three MCP tools, any condition raised by the
Extraction Core is caught at the tool boundary and the call returns (always
completes with) a single error-flagged text content block containing the
condition's message. -/
theorem mcp_tools_catch_core_conditions (env : FsEnv) (pdfPath : String)
    (outputDir : Option String) (format : String) (returnBase64 : Bool)
    (dpi : Int) :
    (∀ e, (extractText env pdfPath).1 = .error e →
      extract_pdf_text env pdfPath =
        { content := [.text ("Error: " ++ e.message)], isError := true }) ∧
    (∀ e, (extractImages env pdfPath
        (toolImageOptions outputDir format returnBase64 dpi)).1 = .error e →
      extract_pdf_images env pdfPath outputDir format returnBase64 dpi =
        { content := [.text ("Error: " ++ e.message)], isError := true }) ∧
    (∀ e, (extractAll env pdfPath
        (toolAllOptions outputDir format dpi)).1 = .error e →
      extract_pdf_all env pdfPath outputDir format dpi =
        { content := [.text ("Error: " ++ e.message)], isError := true }) := by
  refine ⟨fun e he => ?_, fun e he => ?_, fun e he => ?_⟩
  · unfold extract_pdf_text
    rw [he]
  · unfold extract_pdf_images
    rw [he]
  · unfold extract_pdf_all
    rw [he]

/-- Witness for C7: a nonexistent path makes all three tools return the
caught FileNotFound message as an error-flagged text block. -/
theorem mcp_tools_catch_core_conditions_witness :
    extract_pdf_text emptyEnv "doc.pdf" =
      { content :=
          [.text ("Error: " ++
            (JsError.fileNotFound "/work/doc.pdf").message)]
        isError := true } ∧
    extract_pdf_images emptyEnv "doc.pdf" none "png" false 150 =
      { content :=
          [.text ("Error: " ++
            (JsError.fileNotFound "/work/doc.pdf").message)]
        isError := true } ∧
    extract_pdf_all emptyEnv "doc.pdf" none "png" 150 =
      { content :=
          [.text ("Error: " ++
            (JsError.fileNotFound "/work/doc.pdf").message)]
        isError := true } := by
  obtain ⟨h1, h2, h3⟩ :=
    mcp_tools_catch_core_conditions emptyEnv "doc.pdf" none "png" false 150
  exact ⟨h1 (JsError.fileNotFound "/work/doc.pdf") (by decide),
    h2 (JsError.fileNotFound "/work/doc.pdf") (by decide),
    h3 (JsError.fileNotFound "/work/doc.pdf") (by decide)⟩

/-! ## Claim C10 -/

theorem extractEmbeddedImages_inline_no_events (pageIndex : Nat)
    (pdfBaseName : String) (outputDir : JStr) (format : String) :
    ∀ blocks idx,
      (extractEmbeddedImages pageIndex pdfBaseName outputDir format true
        blocks idx).2 = [] := by
  intro blocks
  induction blocks with
  | nil => intro idx; rfl
  | cons blk rest ih =>
    intro idx
    cases blk with
    | decodeFails => exact ih idx
    | ok pix x0 y0 x1 y1 =>
      simpa [extractEmbeddedImages] using ih (idx + 1)

theorem imagesLoop_inline_no_events (pdfBaseName : String) (outputDir : JStr)
    (format : String) :
    ∀ ps i, (imagesLoop pdfBaseName outputDir format true ps i).2 = [] := by
  intro ps
  induction ps with
  | nil => intro i; rfl
  | cons p rest ih =>
    intro i
    cases hstext : p.stext with
    | none => simpa [imagesLoop, hstext] using ih (i + 1)
    | some blocks =>
      simpa [imagesLoop, hstext, extractEmbeddedImages_inline_no_events]
        using ih (i + 1)

/-- Claim C10: with inline (base64) mode on, `extractImages` performs no
filesystem writes at all — its event trace contains no directory creation
and no file write, for any PDF and any options. -/
theorem inline_mode_performs_no_filesystem_writes (env : FsEnv)
    (pdfPath : String) (options : ImgOptions)
    (h : options.base64 = some true) :
    ∀ ev ∈ (extractImages env pdfPath options).2, ev.isWrite = false := by
  intro ev hev
  unfold extractImages at hev
  rw [h] at hev
  by_cases hex : resolvePath env.cwd pdfPath ∈ env.existingFiles
  · rw [if_pos hex] at hev
    cases hdoc : env.doc with
    | none =>
      rw [hdoc] at hev
      simp only [List.mem_cons, List.not_mem_nil, or_false] at hev
      rcases hev with hev | hev <;> subst hev <;> rfl
    | some doc =>
      rw [hdoc] at hev
      simp only [Option.getD_some, reduceIte, imagesLoop_inline_no_events,
        List.append_nil] at hev
      split at hev <;>
        simp only [List.append_nil, List.mem_cons, List.not_mem_nil,
          or_false] at hev <;>
        (rcases hev with hev | hev <;> subst hev <;> rfl)
  · rw [if_neg hex] at hev
    simp at hev

/-- Witness for C10: the inline sample run's trace is write-free. -/
theorem inline_mode_performs_no_filesystem_writes_witness :
    ((extractImages sampleEnv "doc.pdf"
      { base64 := some true }).2.all fun ev => !ev.isWrite) = true := by
  rw [List.all_eq_true]
  intro ev hev
  have hw := inline_mode_performs_no_filesystem_writes sampleEnv "doc.pdf"
    { base64 := some true } rfl ev hev
  simp [hw]

/-! ## Claim C9 -/

theorem extractEmbeddedImages_inline_fields (pageIndex : Nat)
    (pdfBaseName : String) (outputDir : JStr) (format : String) :
    ∀ blocks idx,
      ∀ a ∈ (extractEmbeddedImages pageIndex pdfBaseName outputDir format true
        blocks idx).1,
      a.path = none ∧ a.base64.isSome = true ∧
        a.mimeType =
          some (if format = "jpeg" then "image/jpeg" else "image/png") := by
  intro blocks
  induction blocks with
  | nil => intro idx a ha; simp [extractEmbeddedImages] at ha
  | cons blk rest ih =>
    intro idx a ha
    cases blk with
    | decodeFails => exact ih idx a ha
    | ok pix x0 y0 x1 y1 =>
      simp only [extractEmbeddedImages, reduceIte, List.mem_cons] at ha
      rcases ha with ha | ha
      · subst ha
        refine ⟨rfl, rfl, ?_⟩
        by_cases hf : format = "jpeg" <;> simp [hf]
      · exact ih (idx + 1) a ha

theorem extractEmbeddedImages_disk_fields (pageIndex : Nat)
    (pdfBaseName : String) (outputDir : JStr) (format : String) :
    ∀ blocks idx,
      ∀ a ∈ (extractEmbeddedImages pageIndex pdfBaseName outputDir format
        false blocks idx).1,
      a.base64 = none ∧ a.mimeType = none ∧ a.path.isSome = true := by
  intro blocks
  induction blocks with
  | nil => intro idx a ha; simp [extractEmbeddedImages] at ha
  | cons blk rest ih =>
    intro idx a ha
    cases blk with
    | decodeFails => exact ih idx a ha
    | ok pix x0 y0 x1 y1 =>
      simp only [extractEmbeddedImages] at ha
      rw [if_neg Bool.false_ne_true] at ha
      cases hj : jsPathJoin outputDir (pdfBaseName ++ "_page_" ++
          toString (pageIndex + 1) ++ "_img_" ++ toString idx ++ "." ++
          (if format = "jpeg" then "jpg" else "png")) with
      | error e =>
        rw [hj] at ha
        exact ih idx a ha
      | ok fp =>
        rw [hj] at ha
        simp only [List.mem_cons] at ha
        rcases ha with ha | ha
        · subst ha; exact ⟨rfl, rfl, rfl⟩
        · exact ih (idx + 1) a ha

theorem imagesLoop_ok_inline_fields (pdfBaseName : String) (outputDir : JStr)
    (format : String) :
    ∀ ps i as, (imagesLoop pdfBaseName outputDir format true ps i).1 = .ok as →
      ∀ a ∈ as,
        a.path = none ∧ a.base64.isSome = true ∧
          a.mimeType =
            some (if format = "jpeg" then "image/jpeg" else "image/png") := by
  intro ps
  induction ps with
  | nil =>
    intro i as h a ha
    simp only [imagesLoop, Except.ok.injEq] at h
    subst h
    simp at ha
  | cons p rest ih =>
    intro i as h a ha
    simp only [imagesLoop, reduceIte] at h
    cases hr : (imagesLoop pdfBaseName outputDir format true rest (i + 1)).1 with
    | error e => rw [hr] at h; simp [Except.map] at h
    | ok as2 =>
      rw [hr] at h
      simp only [Except.map, Except.ok.injEq] at h
      subst h
      simp only [List.mem_cons, List.mem_append, or_assoc] at ha
      rcases ha with ha | ha | ha
      · subst ha
        refine ⟨rfl, rfl, ?_⟩
        by_cases hf : format = "jpeg" <;> simp [hf]
      · cases hstext : p.stext with
        | none => rw [hstext] at ha; simp at ha
        | some blocks =>
          rw [hstext] at ha
          exact extractEmbeddedImages_inline_fields i pdfBaseName outputDir
            format blocks 1 a ha
      · exact ih (i + 1) as2 hr a ha

theorem imagesLoop_ok_disk_fields (pdfBaseName : String) (outputDir : JStr)
    (format : String) :
    ∀ ps i as,
      (imagesLoop pdfBaseName outputDir format false ps i).1 = .ok as →
      ∀ a ∈ as,
        a.base64 = none ∧ a.mimeType = none ∧ a.path.isSome = true := by
  intro ps
  induction ps with
  | nil =>
    intro i as h a ha
    simp only [imagesLoop, Except.ok.injEq] at h
    subst h
    simp at ha
  | cons p rest ih =>
    intro i as h a ha
    simp only [imagesLoop] at h
    rw [if_neg Bool.false_ne_true] at h
    cases hj : jsPathJoin outputDir (pdfBaseName ++ "_page_" ++
        toString (i + 1) ++ "." ++
        (if format = "jpeg" then "jpg" else "png")) with
    | error e => rw [hj] at h; simp at h
    | ok fp =>
      rw [hj] at h
      cases hr : (imagesLoop pdfBaseName outputDir format false rest (i + 1)).1 with
      | error e => rw [hr] at h; simp [Except.map] at h
      | ok as2 =>
        rw [hr] at h
        simp only [Except.map, Except.ok.injEq] at h
        subst h
        simp only [List.mem_cons, List.mem_append, or_assoc] at ha
        rcases ha with ha | ha | ha
        · subst ha; exact ⟨rfl, rfl, rfl⟩
        · cases hstext : p.stext with
          | none => rw [hstext] at ha; simp at ha
          | some blocks =>
            rw [hstext] at ha
            exact extractEmbeddedImages_disk_fields i pdfBaseName outputDir
              format blocks 1 a ha
        · exact ih (i + 1) as2 hr a ha

/-- Claim C9: every artifact produced by a successful `extractImages` call
carries exactly one delivery: in inline mode a populated base64 payload
with the MIME type matching the requested format (image/jpeg for jpeg,
image/png otherwise) and no disk path; in disk mode a disk path and no
base64 payload (and no MIME type). -/
theorem extractImages_exclusive_delivery_fields (env : FsEnv)
    (pdfPath : String) (options : ImgOptions) (r : ImageResult)
    (h : (extractImages env pdfPath options).1 = .ok r) :
    ∀ a ∈ r.images,
      (options.base64.getD false = true →
        a.path = none ∧ a.base64.isSome = true ∧
          a.mimeType =
            some (if options.format.getD "png" = "jpeg" then "image/jpeg"
              else "image/png")) ∧
      (options.base64.getD false = false →
        a.base64 = none ∧ a.mimeType = none ∧ a.path.isSome = true) := by
  intro a ha
  unfold extractImages at h
  by_cases hex : resolvePath env.cwd pdfPath ∈ env.existingFiles
  · rw [if_pos hex] at h
    cases hdoc : env.doc with
    | none => rw [hdoc] at h; simp at h
    | some doc =>
      rw [hdoc] at h
      cases hb : options.base64.getD false with
      | true =>
        rw [hb] at h
        simp only [eq_self_iff_true, if_true] at h
        refine ⟨fun _ => ?_, fun hfalse => nomatch hfalse⟩
        cases hl : (imagesLoop (basenameNoExt (resolvePath env.cwd pdfPath))
            (options.outputDir.orDefault (dirname (resolvePath env.cwd pdfPath)))
            (options.format.getD "png") true doc.pages 0).1 with
        | error e => rw [hl] at h; simp at h
        | ok images =>
          rw [hl] at h
          simp only [Except.ok.injEq] at h
          subst h
          exact imagesLoop_ok_inline_fields _ _ _ doc.pages 0 images hl a ha
      | false =>
        rw [hb] at h
        simp only [Bool.false_eq_true, if_false] at h
        refine ⟨(fun htrue => nomatch htrue), fun _ => ?_⟩
        cases hd : options.outputDir.orDefault
            (dirname (resolvePath env.cwd pdfPath)) with
        | undef => rw [hd] at h; simp at h
        | null => rw [hd] at h; simp at h
        | str s =>
          rw [hd] at h
          simp only at h
          cases hl : (imagesLoop (basenameNoExt (resolvePath env.cwd pdfPath))
              (JStr.str s) (options.format.getD "png") false doc.pages 0).1 with
          | error e => rw [hl] at h; simp at h
          | ok images =>
            rw [hl] at h
            simp only [Except.ok.injEq] at h
            subst h
            exact imagesLoop_ok_disk_fields _ _ _ doc.pages 0 images hl a ha
  · rw [if_neg hex] at h
    simp at h

/-- The artifact list `extractImages` produces on `sampleEnv` with
`format = jpeg` in inline mode. -/
def sampleJpegInlineResult : ImageResult :=
  { file := "/work/doc.pdf"
    totalPages := 2
    totalImages := 4
    images :=
      [{ page := 1, imageIndex := 0, width := 10, height := 20,
         format := "jpeg", base64 := some "BAU=",
         mimeType := some "image/jpeg" },
       { page := 1, imageIndex := 1, width := 7, height := 8,
         format := "jpeg", type := some "embedded",
         bbox := some ⟨1, 2, 4, 7⟩, base64 := some "CgsM",
         mimeType := some "image/jpeg" },
       { page := 1, imageIndex := 2, width := 10, height := 20,
         format := "jpeg", type := some "embedded",
         bbox := some ⟨0, 0, 3, 3⟩, base64 := some "BAU=",
         mimeType := some "image/jpeg" },
       { page := 2, imageIndex := 0, width := 7, height := 8,
         format := "jpeg", base64 := some "CgsM",
         mimeType := some "image/jpeg" }] }

/-- The first artifact of `sampleJpegInlineResult`. -/
def sampleJpegArt : Artifact :=
  { page := 1, imageIndex := 0, width := 10, height := 20,
    format := "jpeg", base64 := some "BAU=", mimeType := some "image/jpeg" }

/-- Witness for C9: a concrete artifact of a jpeg inline run has base64 and
the matching MIME type, and no disk path. -/
theorem extractImages_exclusive_delivery_fields_witness :
    sampleJpegArt.path = none ∧ sampleJpegArt.base64.isSome = true ∧
      sampleJpegArt.mimeType = some "image/jpeg" := by
  have h := extractImages_exclusive_delivery_fields sampleEnv "doc.pdf"
    { format := some "jpeg", base64 := some true } sampleJpegInlineResult
    (by decide) sampleJpegArt (by decide)
  exact ⟨(h.1 rfl).1, (h.1 rfl).2.1, (h.1 rfl).2.2⟩

/-! ## Claim C2 -/

/-- The embedded artifacts of one page all carry that page's number and the
embedded kind, and their image indices are contiguous from the starting
index (failed decodes do not advance the index). -/
theorem extractEmbeddedImages_group_structure (pageIndex : Nat)
    (pdfBaseName : String) (outputDir : JStr) (format : String)
    (returnBase64 : Bool) :
    ∀ blocks idx,
      (∀ a ∈ (extractEmbeddedImages pageIndex pdfBaseName outputDir format
          returnBase64 blocks idx).1,
        a.page = pageIndex + 1 ∧ a.type = some "embedded") ∧
      (extractEmbeddedImages pageIndex pdfBaseName outputDir format
          returnBase64 blocks idx).1.map Artifact.imageIndex =
        List.range' idx (extractEmbeddedImages pageIndex pdfBaseName outputDir
          format returnBase64 blocks idx).1.length := by
  intro blocks
  induction blocks with
  | nil =>
    intro idx
    exact ⟨fun a ha => absurd ha (by simp [extractEmbeddedImages]),
      by simp [extractEmbeddedImages]⟩
  | cons blk rest ih =>
    intro idx
    cases blk with
    | decodeFails => exact ih idx
    | ok pix x0 y0 x1 y1 =>
      cases returnBase64 with
      | true =>
        constructor
        · intro a ha
          rw [extractEmbeddedImages] at ha
          simp only [eq_self_iff_true, if_true, List.mem_cons] at ha
          rcases ha with rfl | ha
          · exact ⟨rfl, rfl⟩
          · exact (ih (idx + 1)).1 a ha
        · rw [extractEmbeddedImages]
          simp only [eq_self_iff_true, if_true, List.map_cons,
            List.length_cons, List.range'_succ]
          rw [(ih (idx + 1)).2]
      | false =>
        rw [extractEmbeddedImages, if_neg Bool.false_ne_true]
        dsimp only
        cases hj : jsPathJoin outputDir (pdfBaseName ++ "_page_" ++
            toString (pageIndex + 1) ++ "_img_" ++ toString idx ++ "." ++
            (if format = "jpeg" then "jpg" else "png")) with
        | error e => exact ih idx
        | ok fp =>
          constructor
          · intro a ha
            simp only [List.mem_cons] at ha
            rcases ha with rfl | ha
            · exact ⟨rfl, rfl⟩
            · exact (ih (idx + 1)).1 a ha
          · simp only [List.map_cons, List.length_cons, List.range'_succ]
            rw [(ih (idx + 1)).2]

/-- A successful image loop decomposes into one group per page, each group
being the page's render artifact (imageIndex 0) followed by its embedded
artifacts with indices 1..N. -/
theorem imagesLoop_ok_group_structure (pdfBaseName : String)
    (outputDir : JStr) (format : String) (returnBase64 : Bool) :
    ∀ ps i as,
      (imagesLoop pdfBaseName outputDir format returnBase64 ps i).1 = .ok as →
      ∃ groups : List (List Artifact),
        as = groups.flatten ∧
        groups.length = ps.length ∧
        ∀ k (hk : k < groups.length), ∃ render emb,
          groups.get ⟨k, hk⟩ = render :: emb ∧
          render.page = i + k + 1 ∧ render.imageIndex = 0 ∧
          render.type = none ∧
          (∀ a ∈ emb, a.page = i + k + 1 ∧ a.type = some "embedded") ∧
          emb.map Artifact.imageIndex = List.range' 1 emb.length := by
  intro ps
  induction ps with
  | nil =>
    intro i as h
    simp only [imagesLoop, Except.ok.injEq] at h
    subst h
    exact ⟨[], rfl, rfl, fun k hk => absurd hk (by simp)⟩
  | cons p rest ih =>
    intro i as h
    have hemb := extractEmbeddedImages_group_structure i pdfBaseName outputDir
      format returnBase64
    -- the page's embedded artifacts, whatever the stext outcome
    have hembs :
        (∀ a ∈ (match p.stext with
            | some blocks => extractEmbeddedImages i pdfBaseName outputDir
                format returnBase64 blocks 1
            | none => ([], [])).1,
          a.page = i + 1 ∧ a.type = some "embedded") ∧
        (match p.stext with
            | some blocks => extractEmbeddedImages i pdfBaseName outputDir
                format returnBase64 blocks 1
            | none => ([], [])).1.map Artifact.imageIndex =
          List.range' 1 (match p.stext with
            | some blocks => extractEmbeddedImages i pdfBaseName outputDir
                format returnBase64 blocks 1
            | none => ([], [])).1.length := by
      cases p.stext with
      | none => exact ⟨fun a ha => absurd ha (by simp), by simp⟩
      | some blocks => exact hemb blocks 1
    cases returnBase64 with
    | true =>
      rw [imagesLoop] at h
      simp only [eq_self_iff_true, if_true] at h
      cases hr : (imagesLoop pdfBaseName outputDir format true rest (i + 1)).1 with
      | error e => rw [hr] at h; simp [Except.map] at h
      | ok as2 =>
        rw [hr] at h
        simp only [Except.map, Except.ok.injEq] at h
        subst h
        obtain ⟨groups2, hflat, hlen, hprops⟩ := ih (i + 1) as2 hr
        subst hflat
        refine ⟨(_ :: _) :: groups2, rfl, by simp [hlen], ?_⟩
        · intro k hk
          cases k with
          | zero =>
            refine ⟨_, _, rfl, rfl, rfl, rfl, ?_, hembs.2⟩
            intro a ha
            exact hembs.1 a ha
          | succ k2 =>
            simp only [List.length_cons, Nat.succ_lt_succ_iff] at hk
            obtain ⟨render, emb, hget, hpage, hidx, htype, hembp, hmap⟩ :=
              hprops k2 hk
            refine ⟨render, emb, hget, ?_, hidx, htype, ?_, hmap⟩
            · rw [hpage]; omega
            · intro a ha
              obtain ⟨ha1, ha2⟩ := hembp a ha
              exact ⟨by rw [ha1]; omega, ha2⟩
    | false =>
      rw [imagesLoop, if_neg Bool.false_ne_true] at h
      dsimp only at h
      cases hj : jsPathJoin outputDir (pdfBaseName ++ "_page_" ++
          toString (i + 1) ++ "." ++
          (if format = "jpeg" then "jpg" else "png")) with
      | error e => rw [hj] at h; simp at h
      | ok fp =>
        rw [hj] at h
        cases hr : (imagesLoop pdfBaseName outputDir format false rest (i + 1)).1 with
        | error e => rw [hr] at h; simp [Except.map] at h
        | ok as2 =>
          rw [hr] at h
          simp only [Except.map, Except.ok.injEq] at h
          subst h
          obtain ⟨groups2, hflat, hlen, hprops⟩ := ih (i + 1) as2 hr
          subst hflat
          refine ⟨(_ :: _) :: groups2, rfl, by simp [hlen], ?_⟩
          · intro k hk
            cases k with
            | zero =>
              refine ⟨_, _, rfl, rfl, rfl, rfl, ?_, hembs.2⟩
              intro a ha
              exact hembs.1 a ha
            | succ k2 =>
              simp only [List.length_cons, Nat.succ_lt_succ_iff] at hk
              obtain ⟨render, emb, hget, hpage, hidx, htype, hembp, hmap⟩ :=
                hprops k2 hk
              refine ⟨render, emb, hget, ?_, hidx, htype, ?_, hmap⟩
              · rw [hpage]; omega
              · intro a ha
                obtain ⟨ha1, ha2⟩ := hembp a ha
                exact ⟨by rw [ha1]; omega, ha2⟩

/-- Claim C2: for every valid PDF, a successful `extractImages` result
contains, for each page in page order, one page-render artifact with
imageIndex 0 followed by that page's zero or more embedded artifacts with
imageIndex 1..N: the images sequence is the concatenation of per-page
groups indexed 1..totalPages, so it is ordered first by page number, then
by imageIndex. -/
theorem extractImages_page_ordered_groups (env : FsEnv) (pdfPath : String)
    (options : ImgOptions) (d : PdfDocument) (r : ImageResult)
    (hdoc : env.doc = some d)
    (h : (extractImages env pdfPath options).1 = .ok r) :
    r.totalPages = d.pages.length ∧
    ∃ groups : List (List Artifact),
      r.images = groups.flatten ∧
      groups.length = r.totalPages ∧
      ∀ k (hk : k < groups.length), ∃ render emb,
        groups.get ⟨k, hk⟩ = render :: emb ∧
        render.page = k + 1 ∧ render.imageIndex = 0 ∧ render.type = none ∧
        (∀ a ∈ emb, a.page = k + 1 ∧ a.type = some "embedded") ∧
        emb.map Artifact.imageIndex = List.range' 1 emb.length := by
  unfold extractImages at h
  by_cases hex : resolvePath env.cwd pdfPath ∈ env.existingFiles
  · rw [if_pos hex] at h
    rw [hdoc] at h
    have main : ∀ as,
        (imagesLoop (basenameNoExt (resolvePath env.cwd pdfPath))
          (options.outputDir.orDefault (dirname (resolvePath env.cwd pdfPath)))
          (options.format.getD "png") (options.base64.getD false)
          d.pages 0).1 = .ok as →
        r = { file := resolvePath env.cwd pdfPath
              totalPages := d.pages.length
              totalImages := as.length
              images := as } →
        r.totalPages = d.pages.length ∧
        ∃ groups : List (List Artifact),
          r.images = groups.flatten ∧
          groups.length = r.totalPages ∧
          ∀ k (hk : k < groups.length), ∃ render emb,
            groups.get ⟨k, hk⟩ = render :: emb ∧
            render.page = k + 1 ∧ render.imageIndex = 0 ∧
            render.type = none ∧
            (∀ a ∈ emb, a.page = k + 1 ∧ a.type = some "embedded") ∧
            emb.map Artifact.imageIndex = List.range' 1 emb.length := by
      intro as hl hr
      subst hr
      refine ⟨rfl, ?_⟩
      obtain ⟨groups, hflat, hlen, hprops⟩ :=
        imagesLoop_ok_group_structure _ _ _ _ d.pages 0 as hl
      refine ⟨groups, hflat, by simpa using hlen, ?_⟩
      intro k hk
      obtain ⟨render, emb, hget, hpage, hidx, htype, hembp, hmap⟩ :=
        hprops k hk
      refine ⟨render, emb, hget, by simpa using hpage, hidx, htype, ?_, hmap⟩
      intro a ha
      obtain ⟨ha1, ha2⟩ := hembp a ha
      exact ⟨by simpa using ha1, ha2⟩
    cases hb : options.base64.getD false with
    | true =>
      rw [hb] at h
      simp only [eq_self_iff_true, if_true] at h
      cases hl : (imagesLoop (basenameNoExt (resolvePath env.cwd pdfPath))
          (options.outputDir.orDefault (dirname (resolvePath env.cwd pdfPath)))
          (options.format.getD "png") true d.pages 0).1 with
      | error e => rw [hl] at h; simp at h
      | ok images =>
        rw [hl] at h
        simp only [Except.ok.injEq] at h
        exact main images (by rw [← hb] at hl; exact hl) h.symm
    | false =>
      rw [hb] at h
      simp only [Bool.false_eq_true, if_false] at h
      cases hd : options.outputDir.orDefault
          (dirname (resolvePath env.cwd pdfPath)) with
      | undef => rw [hd] at h; simp at h
      | null => rw [hd] at h; simp at h
      | str s =>
        rw [hd] at h
        simp only at h
        cases hl : (imagesLoop (basenameNoExt (resolvePath env.cwd pdfPath))
            (JStr.str s) (options.format.getD "png") false d.pages 0).1 with
        | error e => rw [hl] at h; simp at h
        | ok images =>
          rw [hl] at h
          simp only [Except.ok.injEq] at h
          exact main images (by rw [← hb, ← hd] at hl; exact hl) h.symm
  · rw [if_neg hex] at h
    simp at h

/-- The image result `extractImages` produces on `sampleEnv` with default
options (disk mode, output defaulting to the PDF's directory). -/
def sampleDiskResult : ImageResult :=
  { file := "/work/doc.pdf"
    totalPages := 2
    totalImages := 4
    images :=
      [{ page := 1, imageIndex := 0, width := 10, height := 20,
         format := "png", path := some "/work/doc_page_1.png" },
       { page := 1, imageIndex := 1, width := 7, height := 8,
         format := "png", type := some "embedded",
         bbox := some ⟨1, 2, 4, 7⟩,
         path := some "/work/doc_page_1_img_1.png" },
       { page := 1, imageIndex := 2, width := 10, height := 20,
         format := "png", type := some "embedded",
         bbox := some ⟨0, 0, 3, 3⟩,
         path := some "/work/doc_page_1_img_2.png" },
       { page := 2, imageIndex := 0, width := 7, height := 8,
         format := "png", path := some "/work/doc_page_2.png" }] }

/-- Witness for C2 at the sample document with default options. -/
theorem extractImages_page_ordered_groups_witness :
    sampleDiskResult.totalPages = sampleDoc.pages.length ∧
    ∃ groups : List (List Artifact),
      sampleDiskResult.images = groups.flatten ∧
      groups.length = sampleDiskResult.totalPages ∧
      ∀ k (hk : k < groups.length), ∃ render emb,
        groups.get ⟨k, hk⟩ = render :: emb ∧
        render.page = k + 1 ∧ render.imageIndex = 0 ∧ render.type = none ∧
        (∀ a ∈ emb, a.page = k + 1 ∧ a.type = some "embedded") ∧
        emb.map Artifact.imageIndex = List.range' 1 emb.length :=
  extractImages_page_ordered_groups sampleEnv "doc.pdf" {} sampleDoc
    sampleDiskResult rfl (by decide)

/-! ## Claim C8 -/

/-- Dropping a failing image block from a page's structured-text walk does
not change the walk's artifacts or events at any starting index. -/
theorem extractEmbeddedImages_skip_decodeFails (pageIndex : Nat)
    (pdfBaseName : String) (outputDir : JStr) (format : String)
    (returnBase64 : Bool) :
    ∀ pre post idx,
      extractEmbeddedImages pageIndex pdfBaseName outputDir format
        returnBase64 (pre ++ EmbeddedBlock.decodeFails :: post) idx =
      extractEmbeddedImages pageIndex pdfBaseName outputDir format
        returnBase64 (pre ++ post) idx := by
  intro pre
  induction pre with
  | nil => intro post idx; rfl
  | cons blk pre2 ih =>
    intro post idx
    cases blk with
    | decodeFails =>
      simp only [List.cons_append, extractEmbeddedImages, List.append_eq]
      exact ih post idx
    | ok pix x0 y0 x1 y1 =>
      simp only [List.cons_append, extractEmbeddedImages, List.append_eq, ih]

/-- Page-loop congruence: a failing embedded block on any page leaves the
whole loop's output and trace unchanged. -/
theorem imagesLoop_skip_decodeFails (pdfBaseName : String) (outputDir : JStr)
    (format : String) (returnBase64 : Bool) (txt : String) (pix : Pixmap)
    (pre post : List EmbeddedBlock) :
    ∀ (l r : List Page) i,
      imagesLoop pdfBaseName outputDir format returnBase64
        (l ++ Page.mk txt pix
          (some (pre ++ EmbeddedBlock.decodeFails :: post)) :: r) i =
      imagesLoop pdfBaseName outputDir format returnBase64
        (l ++ Page.mk txt pix (some (pre ++ post)) :: r) i := by
  intro l
  induction l with
  | nil =>
    intro r i
    simp only [List.nil_append, imagesLoop, List.append_eq,
      extractEmbeddedImages_skip_decodeFails]
  | cons p2 l2 ih =>
    intro r i
    simp only [List.cons_append, imagesLoop, List.append_eq, ih]

/-- Claim C8: a failure to decode one embedded image is absorbed where it
occurs — running `extractImages` on a document whose page contains a
failing image block returns exactly the same result (page renders, all
successfully decoded embedded artifacts of that page and of every other
page) and the same trace as running it on the document without the failing
block. -/
theorem embedded_decode_failure_absorbed (cwd : String)
    (files : List String) (parse : Option PdfInfo) (pdfPath : String)
    (options : ImgOptions) (l r : List Page) (txt : String) (pix : Pixmap)
    (pre post : List EmbeddedBlock) :
    extractImages
      ⟨cwd, files, parse,
        some ⟨l ++ Page.mk txt pix
          (some (pre ++ EmbeddedBlock.decodeFails :: post)) :: r⟩⟩
      pdfPath options =
    extractImages
      ⟨cwd, files, parse,
        some ⟨l ++ Page.mk txt pix (some (pre ++ post)) :: r⟩⟩
      pdfPath options := by
  unfold extractImages
  simp only [imagesLoop_skip_decodeFails, List.length_append,
    List.length_cons]

/-! ## Claim C5 -/

/-- Claim C5 (code bug, evaluated at the failing input): the CLI `images`
command without --output-dir does not write under the PDF's own directory.
`parseArgs` initialises `outputDir` to JS `null` and `main` forwards it
verbatim; `null` does not trigger the destructuring default in
`extractImages`, so `fs.mkdirSync(null)` raises a TypeError and the run
fails with no directory created and no image written (trace ends after the
read and the document open).  The documented default does work when
`outputDir` is `undefined` (the direct/MCP route), and the CLI with
`-o /out` uses the given directory — isolating the null pass-through as
the defect. -/
theorem cli_images_missing_output_dir_fails :
    (parseArgs ["images", "doc.pdf"]).outputDir = JStr.null ∧
    cliImages sampleEnv ["images", "doc.pdf"] =
      (.failure (JsError.typeError "path").message,
        [.readFile "/work/doc.pdf", .openDocument]) ∧
    (extractImages sampleEnv "doc.pdf" {}).2.contains
      (Event.mkdir "/work") = true ∧
    (cliImages sampleEnv ["images", "doc.pdf", "-o", "/out"]).2.contains
      (Event.mkdir "/out") = true := by
  decide

end PdfExtractor
